import Mathlib

/-!
# Verification of the swe-agent webhook/dispatch pipeline

A shallow embedding, in Lean 4, of the parts of the swe-agent bridge service
that its specification makes claims about:

* the webhook handler (`internal/webhook/handler.go`): task-id generation,
  permission verification, trigger/prompt extraction, prompt composition,
  and the gate sequence of `handleIssueComment` / `handleReviewComment`;
* the SQLite task store (`internal/taskstore`): `Create`, `Get`, `AddLog`,
  with the database file modelled as an explicit persistent value;
* the codex provider adapter: `buildCodexCommand` and `truncateLogString`.

Go strings are modelled as Lean `String` (a wrapper around `List Char` in
this toolchain); byte indices in the Go code become character indices, which
coincide for the ASCII literals involved in every claim.  Machine integers
(`int`, `int64`) are modelled as `Int` (or `Nat` where the value is a size);
none of the embedded computations can overflow 64 bits on the inputs the
claims quantify over.  Fallible operations return `Except`/`Option`.
-/

namespace Swe

/-! ## Go `strings` helpers used by the handler -/

/-- Embeds Go `strings.Join(parts, sep)`: concatenate the elements of
`parts`, separated by `sep`. -/
def stringsJoin (sep : String) : List String → String
  | [] => ""
  | [a] => a
  | a :: rest => a ++ sep ++ stringsJoin sep rest

/-- Embeds `strings.ReplaceAll(repo, "/", "-")` as used by `generateTaskID`.
Because both the pattern and the replacement are single characters, the
substring replacement is exactly a character map. -/
def sanitizeRepo (repo : String) : String :=
  ⟨repo.data.map (fun c => if c == '/' then '-' else c)⟩

/-- Leading/trailing-whitespace trim on a character list, used to embed
Go `strings.TrimSpace`. -/
def trimList (l : List Char) : List Char :=
  ((l.dropWhile Char.isWhitespace).reverse.dropWhile Char.isWhitespace).reverse

/-- Embeds Go `strings.TrimSpace` (Go trims Unicode white space; this model
trims the ASCII white-space characters, which agree on every string the
claims quantify over). -/
def trimSpace (s : String) : String := ⟨trimList s.data⟩

/-- Embeds Go `strings.Index(body, kw)`: the position of the first occurrence
of `kw` in `body`, or `none` when absent (Go returns `-1`). -/
def firstIndexOf : List Char → List Char → Option Nat
  | body, kw =>
    if kw.isPrefixOf body then some 0
    else
      match body with
      | [] => none
      | _ :: rest => (firstIndexOf rest kw).map (· + 1)

/-- Embeds Go `strings.Contains(body, kw)` (which is `Index(body, kw) >= 0`). -/
def containsSub (body kw : String) : Bool :=
  (firstIndexOf body.data kw.data).isSome

/-- Embeds `extractPrompt` (handler.go): find the trigger keyword, return the
trimmed text after it together with a found flag; `("", false)` when the
keyword is absent. -/
def extractPrompt (body triggerKeyword : String) : String × Bool :=
  match firstIndexOf body.data triggerKeyword.data with
  | none => ("", false)
  | some idx =>
      (trimSpace ⟨body.data.drop (idx + triggerKeyword.data.length)⟩, true)

/-- Embeds Go `strings.EqualFold` restricted to simple case folding
(exact for the ASCII arguments `"true"`/`"open"` it is applied to). -/
def equalFold (a b : String) : Bool :=
  a.data.map Char.toLower == b.data.map Char.toLower

/-- Embeds `splitRepo` (handler.go): `strings.SplitN(full, "/", 2)`; a full
name without `/` yields `(full, "")`. -/
def splitRepo (full : String) : String × String :=
  match firstIndexOf full.data ['/'] with
  | none => (full, "")
  | some i => (⟨full.data.take i⟩, ⟨full.data.drop (i + 1)⟩)

/-! ## Task-id construction (handler.go `TaskIDComponents`, `generateTaskID`) -/

/-- Embeds `TaskIDComponents` (handler.go): repository full name, optional
linked-issue number, optional PR number, and the `time.Now().UnixNano()`
timestamp. -/
structure TaskIDComponents where
  repo : String
  issueNumber : Option Int
  prNumber : Option Int
  timestamp : Int
deriving DecidableEq, Repr

/-- Embeds `generateTaskID` (handler.go lines 350-368): sanitize the repo,
append an `issue-{N}` segment when present, then a `pr-{M}` segment when
present, then the timestamp, and join all parts with `"-"`. -/
def generateTaskID (c : TaskIDComponents) : String :=
  let sanitized := sanitizeRepo c.repo
  let parts : List String :=
    [sanitized]
      ++ (match c.issueNumber with
          | some n => ["issue-" ++ toString n]
          | none => [])
      ++ (match c.prNumber with
          | some m => ["pr-" ++ toString m]
          | none => [])
      ++ [toString c.timestamp]
  stringsJoin "-" parts

/-- The task-id format as the specification words it (spec §6, "bit-exact"):
`{repo|/→-}[-issue-{N}][-pr-{M}]-{nanos}`.  Written from the spec text, to be
compared against `generateTaskID`, which is written from the source. -/
def taskIDSpecFormat (c : TaskIDComponents) : String :=
  sanitizeRepo c.repo
    ++ (match c.issueNumber with
        | some n => "-issue-" ++ toString n
        | none => "")
    ++ (match c.prNumber with
        | some m => "-pr-" ++ toString m
        | none => "")
    ++ "-" ++ toString c.timestamp

/-- Outcome of `GetLinkedIssue` (handler.go lines 613-673) as seen by its
callers: `.error ()` covers a timeout of the 2-second context or any platform
error, `.ok none` covers the empty `closingIssuesReferences` result, and
`.ok (some n)` a successfully fetched linked issue. -/
abbrev EnrichmentResult := Except Unit (Option Int)

/-- Embeds the component construction for a PR-derived comment event
(handler.go lines 197-212 and 305-323): the PR number is always set; the
issue number is set only when enrichment returns `err == nil && issueNum != nil`. -/
def buildPRComponents (repo : String) (prNumber : Int) (timestamp : Int)
    (enrichment : EnrichmentResult) : TaskIDComponents :=
  { repo := repo
    prNumber := some prNumber
    issueNumber :=
      match enrichment with
      | .ok (some n) => some n
      | _ => none
    timestamp := timestamp }

/-! ## Prompt composition (handler.go `buildPrompt`) -/

/-- Embeds `buildPrompt` (handler.go lines 470-497), replaying the
`strings.Builder` writes: the trimmed instruction first, then (when a trimmed
title or body exists) a `\n\n---\n\n` separator when the builder is nonempty,
the `# Issue Context` header, and `\n\n## Title\n{title}` / `\n\n## Body\n{body}`
sections for the nonempty fields. -/
def buildPrompt (title body userInstruction : String) : String :=
  let instruction := trimSpace userInstruction
  let t := trimSpace title
  let b := trimSpace body
  let afterInstruction := instruction
  if t != "" || b != "" then
    (if afterInstruction.length > 0 then afterInstruction ++ "\n\n---\n\n"
     else afterInstruction)
      ++ "# Issue Context"
      ++ (if t != "" then "\n\n## Title\n" ++ t else "")
      ++ (if b != "" then "\n\n## Body\n" ++ b else "")
  else afterInstruction

/-! ## Task store (`internal/taskstore`, sources in `src/unnamed/part_007`)

The SQLite database file is modelled as an explicit `DB` value: the `tasks`
table as a list of rows in insertion (rowid) order and the `logs` table as a
list of `(task_id, entry)` rows in insertion order.  `NewStore(path)` opens
the file at `path` (`CREATE TABLE IF NOT EXISTS` preserves existing rows) and
`Close` flushes it; in the model they convert between the persistent `DB`
value and the live `Store`.  `time.Time` values are modelled as nanosecond
`Int` timestamps. -/

/-- Embeds `TaskStatus` with its four database-enforced values. -/
inductive TaskStatus
  | pending
  | running
  | completed
  | failed
deriving DecidableEq, Repr

/-- Embeds `taskstore.LogEntry`. -/
structure LogEntry where
  timestamp : Int
  level : String
  message : String
deriving DecidableEq, Repr

/-- Embeds `taskstore.Task`.  In `DB.tasks` the `logs` field of every row is
`[]` (logs live in the logs table); `Store.get` fills it in. -/
structure StoreTask where
  id : String
  title : String
  status : TaskStatus
  repoOwner : String
  repoName : String
  issueNumber : Int
  actor : String
  createdAt : Int
  updatedAt : Int
  logs : List LogEntry
deriving DecidableEq, Repr

/-- The persistent content of the SQLite file: both tables in rowid order. -/
structure DB where
  tasks : List StoreTask
  logRows : List (String × LogEntry)
deriving DecidableEq, Repr

/-- The live store handle (`taskstore.Store` wraps the open connection). -/
structure Store where
  db : DB
deriving DecidableEq, Repr

/-- Embeds `NewStore(dbPath)`: open the database file; the schema is created
with `IF NOT EXISTS`, so existing rows are preserved. -/
def NewStore (db : DB) : Store := ⟨db⟩

/-- Embeds `Store.Close`: the database file keeps the current content. -/
def Store.Close (s : Store) : DB := s.db

/-- A freshly created database file (no rows). -/
def emptyDB : DB := ⟨[], []⟩

/-- The database-enforced CHECK constraint on `logs.level`. -/
def validLogLevel (level : String) : Bool :=
  level == "info" || level == "error" || level == "success" || level == "hint"

/-- Embeds the timestamp assignment in `Create`: `task.CreatedAt = time.Now();
task.UpdatedAt = time.Now()` before the insert, so the caller's record carries
these values afterwards. -/
def setCreationTimes (task : StoreTask) (now : Int) : StoreTask :=
  { task with createdAt := now, updatedAt := now }

/-- Embeds `Store.Create` (part_007 lines 117-154): one transaction inserting
the task row and its pre-seeded logs.  A duplicate primary key, or a log level
outside the CHECK constraint, makes an insert fail and the transaction roll
back, which surfaces as `.error ()`. -/
def Store.create (s : Store) (task : StoreTask) (now : Int) : Except Unit Store :=
  let stamped := setCreationTimes task now
  if s.db.tasks.any (fun r => r.id == task.id) then .error ()
  else if !task.logs.all (fun l => validLogLevel l.level) then .error ()
  else
    .ok ⟨{ tasks := s.db.tasks ++ [{ stamped with logs := [] }]
           logRows := s.db.logRows ++ stamped.logs.map (fun l => (task.id, l)) }⟩

/-- Stable-for-strict-order insertion used to model `ORDER BY timestamp ASC`. -/
def insertByTime (e : LogEntry) : List LogEntry → List LogEntry
  | [] => [e]
  | x :: xs => if e.timestamp < x.timestamp then e :: x :: xs else x :: insertByTime e xs

/-- Sorting by timestamp, modelling the `ORDER BY timestamp ASC` of `loadLogs`
(ties are returned in an order SQLite leaves unspecified; the claims below
only rely on the strictly-ordered case, where every sort agrees). -/
def sortLogsByTime : List LogEntry → List LogEntry
  | [] => []
  | x :: xs => insertByTime x (sortLogsByTime xs)

/-- Embeds `loadLogs` (part_007 lines 181-201): all log rows of the task,
ordered by timestamp ascending. -/
def loadLogs (db : DB) (taskId : String) : List LogEntry :=
  sortLogsByTime ((db.logRows.filter (fun p => p.1 == taskId)).map (fun p => p.2))

/-- Embeds `Store.Get` (part_007 lines 157-178): the row with the given id,
with its logs loaded; `none` models `(nil, false)`. -/
def Store.get (s : Store) (id : String) : Option StoreTask :=
  match s.db.tasks.find? (fun r => r.id == id) with
  | none => none
  | some r => some { r with logs := loadLogs s.db id }

/-- Embeds `Store.AddLog` (part_007 lines 249-284): one transaction inserting
a log row and bumping the task's `updated_at`.  When no task row carries the
id, the foreign-key constraint rejects the insert and the transaction rolls
back, leaving the database unchanged. -/
def Store.addLog (s : Store) (id level message : String) (now : Int) : Store :=
  if s.db.tasks.any (fun r => r.id == id) && validLogLevel level then
    ⟨{ tasks := s.db.tasks.map (fun r => if r.id == id then { r with updatedAt := now } else r)
       logRows := s.db.logRows ++ [(id, ⟨now, level, message⟩)] }⟩
  else s

/-! ## Webhook handler pipeline (handler.go `handleIssueComment`,
`handleReviewComment`)

The handler is embedded as a state-passing function.  Two aspects that live
outside the provided sources are abstracted as explicit inputs:

* `permissionOk` — the value of `h.verifyPermission(repo, login)`, whose body
  is embedded separately as `verifyPermission` (it reads environment
  variables and calls the platform API);
* `enrichment` — the outcome of `h.githubClient.GetLinkedIssue` (a `gh api`
  subprocess with a 2-second deadline); a nil `githubClient` behaves like
  `.error ()` here: no issue segment is added.

`now` stands for `time.Now().UnixNano()`; the store insert and log append of
the same request reuse it (the Go code takes fresh, slightly later clock
readings, which no claim depends on).  Signature verification and payload
parsing happen earlier in `Handle` and are outside this fragment; the
dispatcher queue is modelled as unbounded (`Enqueue` succeeding), which is
the regime every claim below quantifies over. -/

/-- The fields of `IssueCommentEvent` the handler reads. -/
structure CommentEvent where
  action : String
  userType : String
  userLogin : String
  body : String
  commentId : Nat
  repoFullName : String
  defaultBranch : String
  issueNumber : Int
  issueTitle : String
  issueBody : String
  isPR : Bool
deriving DecidableEq, Repr

/-- The fields of `PullRequestReviewCommentEvent` the handler reads. -/
structure ReviewCommentEvent where
  action : String
  userType : String
  userLogin : String
  body : String
  commentId : Nat
  repoFullName : String
  defaultBranch : String
  prNumber : Int
  prTitle : String
  prBody : String
  prBaseRef : String
  prHeadRef : String
  prState : String
deriving DecidableEq, Repr

/-- The handler's responses, one per `WriteHeader`/`Write` site of the two
comment handlers (enqueue failures are out of the modelled regime). -/
inductive HResponse
  | actionIgnored
  | botIgnored
  | noTriggerKeyword
  | permissionDenied
  | duplicateIgnored
  | noPromptFound
  | taskQueued
deriving DecidableEq, Repr

/-- The HTTP status the handler writes for each response. -/
def HResponse.statusCode : HResponse → Nat
  | .taskQueued => 202
  | _ => 200

/-- The body text the issue-comment handler writes for each response. -/
def HResponse.bodyText : HResponse → String
  | .actionIgnored => "Issue comment action ignored"
  | .botIgnored => "Bot comment ignored"
  | .noTriggerKeyword => "No trigger keyword found"
  | .permissionDenied => "Permission denied"
  | .duplicateIgnored => "Duplicate comment ignored"
  | .noPromptFound => "No prompt found"
  | .taskQueued => "Task queued"

/-- Modelled from the spec: the `commentDeduper` implementation
(`newCommentDeduper`, `markIfNew`, handler.go lines 81-82, 169, 282) is not
among the provided sources.  Spec §4.3: a map `comment_id → first-seen-time`;
`markIfNew(id)` atomically inserts and returns `true` if previously unseen,
otherwise `false`; eviction scans opportunistically and removes entries older
than the retention window, so an entry only suppresses ids inside the
window. -/
def markIfNew (window now : Int) (seen : List (Nat × Int)) (id : Nat) :
    Bool × List (Nat × Int) :=
  let kept := seen.filter (fun e => now - e.2 ≤ window)
  if kept.any (fun e => e.1 == id) then (false, kept)
  else (true, (id, now) :: kept)

/-- The 12-hour retention window (`newCommentDeduper(12 * time.Hour)`), in
nanoseconds. -/
def dedupWindowNanos : Int := 12 * 60 * 60 * 1000000000

/-- The fields of the in-memory `webhook.Task` that the modelled pipeline
constructs (handler.go lines 219-231 and 325-339). -/
structure PilotTask where
  id : String
  repo : String
  number : Int
  branch : String
  prompt : String
  isPR : Bool
  username : String
deriving DecidableEq, Repr

/-- The mutable state the comment handlers touch: the per-kind dedup map, the
task store, and the dispatcher queue (modelled unbounded). -/
structure HandlerState where
  deduper : List (Nat × Int)
  store : Store
  queued : List PilotTask
deriving DecidableEq, Repr

/-- Embeds the `TaskIDComponents` construction of `handleIssueComment`
(handler.go lines 191-216): PR-derived comments get `pr-{M}` plus best-effort
enrichment; plain issue comments get `issue-{N}` directly. -/
def issueEventComponents (event : CommentEvent) (enrichment : EnrichmentResult)
    (now : Int) : TaskIDComponents :=
  if event.isPR then buildPRComponents event.repoFullName event.issueNumber now enrichment
  else
    { repo := event.repoFullName
      issueNumber := some event.issueNumber
      prNumber := none
      timestamp := now }

/-- Embeds `createStoreTask` (handler.go lines 403-423) on the store: build
the store row (zero timestamps; `Create` overwrites them), insert it, and
append the "Task queued" log; a failed insert is logged and skipped. -/
def createStoreTaskStore (s : Store) (task : PilotTask) (title : String)
    (now : Int) : Store :=
  let owner := (splitRepo task.repo).1
  let name := (splitRepo task.repo).2
  let storeTask : StoreTask :=
    { id := task.id, title := title, status := .pending
      repoOwner := owner, repoName := name
      issueNumber := task.number, actor := task.username
      createdAt := 0, updatedAt := 0, logs := [] }
  match s.create storeTask now with
  | .error _ => s
  | .ok s' => s'.addLog task.id "info" "Task queued" now

/-- `createStoreTask` touches only the store component of the handler state. -/
def createStoreTask (st : HandlerState) (task : PilotTask) (title : String)
    (now : Int) : HandlerState :=
  { st with store := createStoreTaskStore st.store task title now }

/-- The task row that a successful `createStoreTask` leaves in the tasks
table: status pending, split repo, both timestamps set by `Create`. -/
def queuedStoreRow (task : PilotTask) (title : String) (now : Int) : StoreTask :=
  { id := task.id, title := title, status := .pending
    repoOwner := (splitRepo task.repo).1, repoName := (splitRepo task.repo).2
    issueNumber := task.number, actor := task.username
    createdAt := now, updatedAt := now, logs := [] }

/-- The "Task queued" log row appended by `createStoreTask`. -/
def queuedLogRow (task : PilotTask) (now : Int) : String × LogEntry :=
  (task.id, ⟨now, "info", "Task queued"⟩)

/-- The task `handleIssueComment` builds when every gate passes. -/
def issueEventTask (triggerKeyword : String) (event : CommentEvent)
    (enrichment : EnrichmentResult) (now : Int) : PilotTask :=
  { id := generateTaskID (issueEventComponents event enrichment now)
    repo := event.repoFullName
    number := event.issueNumber
    branch := event.defaultBranch
    prompt := buildPrompt event.issueTitle event.issueBody
      (extractPrompt event.body triggerKeyword).1
    isPR := event.isPR
    username := event.userLogin }

/-- Embeds `handleIssueComment` (handler.go lines 127-240): the gate sequence
action → bot → trigger keyword → permission → dedup → prompt extraction, then
task construction, store insert, and enqueue. -/
def handleIssueComment (triggerKeyword : String) (window : Int)
    (permissionOk : Bool) (enrichment : EnrichmentResult) (now : Int)
    (st : HandlerState) (event : CommentEvent) : HResponse × HandlerState :=
  if event.action != "created" then (.actionIgnored, st)
  else if event.userType == "Bot" then (.botIgnored, st)
  else if !containsSub event.body triggerKeyword then (.noTriggerKeyword, st)
  else if !permissionOk then (.permissionDenied, st)
  else
    match markIfNew window now st.deduper event.commentId with
    | (false, seen') => (.duplicateIgnored, { st with deduper := seen' })
    | (true, seen') =>
      let st1 : HandlerState := { st with deduper := seen' }
      match extractPrompt event.body triggerKeyword with
      | (_, false) => (.noPromptFound, st1)
      | (_, true) =>
        let task := issueEventTask triggerKeyword event enrichment now
        let st2 := createStoreTask st1 task event.issueTitle now
        (.taskQueued, { st2 with queued := st2.queued ++ [task] })

/-- The task `handleReviewComment` builds when every gate passes. -/
def reviewEventTask (triggerKeyword : String) (event : ReviewCommentEvent)
    (enrichment : EnrichmentResult) (now : Int) : PilotTask :=
  { id := generateTaskID (buildPRComponents event.repoFullName event.prNumber now enrichment)
    repo := event.repoFullName
    number := event.prNumber
    branch := if event.prBaseRef == "" then event.defaultBranch else event.prBaseRef
    prompt := buildPrompt event.prTitle event.prBody
      (extractPrompt event.body triggerKeyword).1
    isPR := true
    username := event.userLogin }

/-- Embeds `handleReviewComment` (handler.go lines 242-348): the same gate
sequence on the review-comment deduper, components always carrying the PR
number plus best-effort enrichment. -/
def handleReviewComment (triggerKeyword : String) (window : Int)
    (permissionOk : Bool) (enrichment : EnrichmentResult) (now : Int)
    (st : HandlerState) (event : ReviewCommentEvent) : HResponse × HandlerState :=
  if event.action != "created" then (.actionIgnored, st)
  else if event.userType == "Bot" then (.botIgnored, st)
  else if !containsSub event.body triggerKeyword then (.noTriggerKeyword, st)
  else if !permissionOk then (.permissionDenied, st)
  else
    match markIfNew window now st.deduper event.commentId with
    | (false, seen') => (.duplicateIgnored, { st with deduper := seen' })
    | (true, seen') =>
      let st1 : HandlerState := { st with deduper := seen' }
      match extractPrompt event.body triggerKeyword with
      | (_, false) => (.noPromptFound, st1)
      | (_, true) =>
        let task := reviewEventTask triggerKeyword event enrichment now
        let st2 := createStoreTask st1 task event.prTitle now
        (.taskQueued, { st2 with queued := st2.queued ++ [task] })

/-! ## Permission verification (handler.go `verifyPermission`) -/

/-- Embeds `verifyPermission` (handler.go lines 372-401).  `apiResult`
abstracts `h.appAuth.CheckUserPermission(repo, username)`; `hasAppAuth` is
whether `h.appAuth` is non-nil.  The first component is the decision, the
second records whether the permission API was consulted. -/
def verifyPermission (allowAllUsersEnv permissionModeEnv : String)
    (hasAppAuth : Bool) (apiResult : Except Unit Bool) : Bool × Bool :=
  if equalFold (trimSpace allowAllUsersEnv) "true"
      || equalFold (trimSpace permissionModeEnv) "open" then
    (true, false)
  else if !hasAppAuth then (true, false)
  else
    match apiResult with
    | .error _ => (true, true)
    | .ok hasPermission => (hasPermission, true)

/-! ## Codex provider adapter (sources in `src/unnamed/part_006`) -/

/-- Embeds the codex `Provider` struct fields. -/
structure CodexProvider where
  model : String
  apiKey : String
  baseURL : String
deriving DecidableEq, Repr

/-- The pieces of the `exec.Cmd` that `buildCodexCommand` constructs: program
name, argument vector, and environment (each entry a `KEY=value` string). -/
structure CodexCmd where
  program : String
  args : List String
  env : List String
deriving DecidableEq, Repr

/-- Embeds `buildCodexCommand` (part_006 lines 262-298).  `osEnviron` is the
inherited `os.Environ()` snapshot and `githubToken` the current value of
`os.Getenv("GITHUB_TOKEN")`. -/
def buildCodexCommand (p : CodexProvider) (repoPath prompt : String)
    (osEnviron : List String) (githubToken : String) : CodexCmd :=
  let args : List String :=
    ["exec",
     "-m", p.model,
     "-c", "model_reasoning_effort=\"high\"",
     "--dangerously-bypass-approvals-and-sandbox",
     "--json",
     "-C", repoPath,
     prompt]
  let env0 := osEnviron
  let env1 := if p.apiKey != "" then env0 ++ ["OPENAI_API_KEY=" ++ p.apiKey] else env0
  let env2 := if p.baseURL != "" then env1 ++ ["OPENAI_BASE_URL=" ++ p.baseURL] else env1
  let env3 := if githubToken != "" then
      env2 ++ ["GITHUB_TOKEN=" ++ githubToken, "GH_TOKEN=" ++ githubToken]
    else env2
  let env4 := env3 ++ ["SANDBOX_MODE=danger-full-access"]
  { program := "codex", args := args, env := env4 }

/-- The ellipsis marker of `truncateLogString` (21 bytes). -/
def truncationMarker : List Char := "\n... (truncated) ...\n".data

/-- Embeds `truncateLogString` (part_006 lines 120-156).  Go strings are
byte sequences; `s` is the byte sequence as a character list and `maxLen` the
Go `int` limit, modelled as `Nat` (the callers pass 2000 and 1000, and every
negative limit behaves exactly like 0, so the nonnegative range is the whole
behaviour).  `tailLen` is computed with truncating subtraction, so the
`tailLen <= 0` guard of the source becomes `tailLen = 0`. -/
def truncateLogString (s : List Char) (maxLen : Nat) : List Char :=
  if maxLen = 0 then []
  else if s.length ≤ maxLen then s
  else if maxLen ≤ truncationMarker.length + 32 then s.drop (s.length - maxLen)
  else
    let headLen := maxLen / 4
    let tailLen := maxLen - headLen - truncationMarker.length
    if tailLen = 0 then
      truncationMarker ++ s.drop (s.length - (maxLen - truncationMarker.length))
    else
      let head := if 0 < headLen then s.take headLen else []
      let tail := s.drop (s.length - tailLen)
      if head = [] then truncationMarker ++ tail
      else head ++ truncationMarker ++ tail

/-! ## Concrete inputs used by counterexamples and witnesses -/

/-- A plain issue-comment delivery that passes every content gate: action
`created`, human author, trigger keyword `/code` present. -/
def sampleIssueEvent : CommentEvent :=
  { action := "created", userType := "User", userLogin := "alice"
    body := "/code fix the bug", commentId := 42
    repoFullName := "acme/repo", defaultBranch := "main"
    issueNumber := 7, issueTitle := "Crash", issueBody := "Details"
    isPR := false }

/-- A handler state whose deduper has already seen comment id 42 (at time 0). -/
def dupSeenState : HandlerState :=
  { deduper := [(42, 0)], store := NewStore emptyDB, queued := [] }

/-- A fresh handler state: empty deduper, empty database, empty queue. -/
def freshState : HandlerState :=
  { deduper := [], store := NewStore emptyDB, queued := [] }

/-- An issue-comment delivery whose body ends at the trigger keyword (only
whitespace after `/code`). -/
def bareTriggerEvent : CommentEvent :=
  { sampleIssueEvent with body := "please /code  " }

/-- A review-comment delivery that passes every content gate. -/
def sampleReviewEvent : ReviewCommentEvent :=
  { action := "created", userType := "User", userLogin := "alice"
    body := "/code tighten this loop", commentId := 99
    repoFullName := "acme/repo", defaultBranch := "main"
    prNumber := 456, prTitle := "Refactor", prBody := "Why"
    prBaseRef := "main", prHeadRef := "feat", prState := "open" }

/-- A store task whose two pre-seeded logs are out of timestamp order. -/
def outOfOrderTask : StoreTask :=
  { id := "t1", title := "T", status := .pending
    repoOwner := "acme", repoName := "repo", issueNumber := 7, actor := "alice"
    createdAt := 0, updatedAt := 0
    logs := [⟨2, "info", "second"⟩, ⟨1, "info", "first"⟩] }

/-- The `Create → Close → Reopen → Get` round trip of `outOfOrderTask` on a
fresh database file. -/
def outOfOrderRoundTrip : Option StoreTask :=
  match (NewStore emptyDB).create outOfOrderTask 5 with
  | .error _ => none
  | .ok s' => (NewStore s'.Close).get outOfOrderTask.id

/-! ## Theorems -/

/-- The join/format equivalence behind the task-id claims: `generateTaskID`
renders exactly the spec's segment format, for every component set. -/
theorem generateTaskID_eq (c : TaskIDComponents) :
    generateTaskID c = taskIDSpecFormat c := by
  have h0 : ("" : String).data = ([] : List Char) := rfl
  have hI : ("-issue-" : String).data = "-".data ++ "issue-".data := rfl
  have hP : ("-pr-" : String).data = "-".data ++ "pr-".data := rfl
  rcases c with ⟨repo, iN, pN, ts⟩
  apply String.ext
  cases iN <;> cases pN <;>
    simp [generateTaskID, taskIDSpecFormat, stringsJoin, String.data_append,
      List.append_assoc, h0, hI, hP]

/-- C1: for every task-id component set, `generateTaskID` returns exactly the
string formed from the repo with every `/` replaced by `-`, then `issue-{N}`
when the issue number is present, then `pr-{M}` when the PR number is present,
then the timestamp, all joined by single dashes — the bit-exact format
`{repo|/→-}[-issue-{N}][-pr-{M}]-{nanos}`. -/
theorem c1_taskid_bit_exact_format (c : TaskIDComponents) :
    generateTaskID c = taskIDSpecFormat c :=
  generateTaskID_eq c

/-- C2: for a PR-derived comment event, a linked-issue enrichment that times
out, errors, or comes back empty leaves the task id without an `issue-`
segment — it equals `{sanitized-repo}-pr-{M}-{nanos}` exactly — while a
successful enrichment inserts `issue-{N}` before `pr-{M}`. -/
theorem c2_enrichment_failure_gives_pr_only_id (repo : String) (m ts : Int)
    (r : EnrichmentResult) :
    (r = .error () ∨ r = .ok none →
      generateTaskID (buildPRComponents repo m ts r)
        = sanitizeRepo repo ++ "-pr-" ++ toString m ++ "-" ++ toString ts)
    ∧ ∀ n : Int, r = .ok (some n) →
      generateTaskID (buildPRComponents repo m ts r)
        = sanitizeRepo repo ++ "-issue-" ++ toString n ++ "-pr-" ++ toString m
            ++ "-" ++ toString ts := by
  constructor
  · rintro (rfl | rfl) <;>
      · rw [generateTaskID_eq]
        simp [buildPRComponents, taskIDSpecFormat, String.append_assoc]
  · rintro n rfl
    rw [generateTaskID_eq]
    simp [buildPRComponents, taskIDSpecFormat, String.append_assoc]

/-- Witness for C2 at a concrete input: a timed-out/failed enrichment for PR
456 of `acme/repo` yields the `issue`-free id. -/
theorem c2_enrichment_failure_gives_pr_only_id_witness :
    generateTaskID (buildPRComponents "acme/repo" 456 1734567891000000000 (.error ()))
      = sanitizeRepo "acme/repo" ++ "-pr-" ++ toString (456 : Int) ++ "-"
          ++ toString (1734567891000000000 : Int) :=
  (c2_enrichment_failure_gives_pr_only_id "acme/repo" 456 1734567891000000000
    (.error ())).1 (Or.inl rfl)

/-- A nonempty string has positive length. -/
theorem length_pos_of_ne_empty (s : String) (h : s ≠ "") : 0 < s.length := by
  cases s with
  | mk d =>
    cases d with
    | nil => exact absurd rfl h
    | cons c cs => simp [String.length]

/-- C5: `verifyPermission` allows whenever the permission API errors
(fail-open); it allows without consulting the API whenever
`ALLOW_ALL_USERS=true` or `PERMISSION_MODE=open` is set; and it denies only
when the API call succeeds and reports missing write permission. -/
theorem c5_verifyPermission_fail_open (a p : String) (hasAuth : Bool)
    (api : Except Unit Bool) :
    (api = .error () → (verifyPermission a p hasAuth api).1 = true)
    ∧ ((equalFold (trimSpace a) "true" = true ∨ equalFold (trimSpace p) "open" = true) →
        verifyPermission a p hasAuth api = (true, false))
    ∧ ((verifyPermission a p hasAuth api).1 = false →
        api = .ok false ∧ (verifyPermission a p hasAuth api).2 = true) := by
  refine ⟨?_, ?_, ?_⟩
  · rintro rfl
    unfold verifyPermission
    split_ifs <;> simp
  · intro h
    have hor : (equalFold (trimSpace a) "true" || equalFold (trimSpace p) "open") = true := by
      rcases h with h | h <;> simp [h]
    unfold verifyPermission
    simp [hor]
  · intro hfalse
    unfold verifyPermission at hfalse ⊢
    rcases api with u | b
    all_goals split_ifs at hfalse ⊢ <;> simp_all

/-- Witness for C5 at concrete inputs: with no environment override and an
erroring API call, the decision is allow; with `ALLOW_ALL_USERS=true`, the
decision is allow and the API is not consulted. -/
theorem c5_verifyPermission_fail_open_witness :
    (verifyPermission "" "" true (.error ())).1 = true
    ∧ verifyPermission "true" "" true (.ok false) = (true, false) := by
  constructor
  · exact (c5_verifyPermission_fail_open "" "" true (.error ())).1 rfl
  · exact (c5_verifyPermission_fail_open "true" "" true (.ok false)).2.1
      (Or.inl (by decide))

/-- C6 counterexample: at title `"T"`, body `"B"`, instruction `"I"`, the
composed prompt is not the claimed concatenation
`{instr}\n\n---\n\n# Issue Context\n## Title\n{title}\n## Body\n{body}` —
the builder writes a blank line (two newlines) before each of `## Title` and
`## Body`. -/
theorem c6_counterexample :
    buildPrompt "T" "B" "I"
      ≠ "I" ++ "\n\n---\n\n# Issue Context\n## Title\n" ++ "T"
          ++ "\n## Body\n" ++ "B" := by decide

/-- C6 (amended): whenever the trimmed instruction, title, and body are all
nonempty, the composed prompt equals exactly
`{instr}\n\n---\n\n# Issue Context\n\n## Title\n{title}\n\n## Body\n{body}`
on the trimmed values. -/
theorem c6_buildPrompt_format (title body instr : String)
    (ht : trimSpace title ≠ "") (hb : trimSpace body ≠ "")
    (hi : trimSpace instr ≠ "") :
    buildPrompt title body instr
      = trimSpace instr ++ "\n\n---\n\n# Issue Context\n\n## Title\n"
          ++ trimSpace title ++ "\n\n## Body\n" ++ trimSpace body := by
  have hlen : 0 < (trimSpace instr).length := length_pos_of_ne_empty _ hi
  have hA : ("\n\n---\n\n# Issue Context\n\n## Title\n" : String).data
      = "\n\n---\n\n".data ++ "# Issue Context".data ++ "\n\n## Title\n".data := rfl
  unfold buildPrompt
  simp only [ht, hb, hi, bne_iff_ne, ne_eq, not_false_iff, ite_true, if_pos,
    Bool.or_true, Bool.true_or, hlen]
  apply String.ext
  simp [String.data_append, List.append_assoc, hA, ht, hb, hlen]

/-- Witness for C6's amended statement at concrete inputs. -/
theorem c6_buildPrompt_format_witness :
    buildPrompt "T" "B" "I"
      = trimSpace "I" ++ "\n\n---\n\n# Issue Context\n\n## Title\n"
          ++ trimSpace "T" ++ "\n\n## Body\n" ++ trimSpace "B" :=
  c6_buildPrompt_format "T" "B" "I" (by decide) (by decide) (by decide)

/-- C8: the codex argument vector is a function of model, working directory,
and prompt alone — two invocations differing only in the credential values
produce identical argv, which never references the API key or base URL — and
the credentials travel exclusively through the `OPENAI_API_KEY` /
`OPENAI_BASE_URL` environment entries, present whenever the values are
nonempty. -/
theorem c8_codex_credentials_env_only (model rp pr k1 b1 k2 b2 : String)
    (osEnv : List String) (gh : String) :
    (buildCodexCommand ⟨model, k1, b1⟩ rp pr osEnv gh).args
        = (buildCodexCommand ⟨model, k2, b2⟩ rp pr osEnv gh).args
    ∧ (buildCodexCommand ⟨model, k1, b1⟩ rp pr osEnv gh).args
        = ["exec", "-m", model, "-c", "model_reasoning_effort=\"high\"",
           "--dangerously-bypass-approvals-and-sandbox", "--json", "-C", rp, pr]
    ∧ (k1 ≠ "" →
        ("OPENAI_API_KEY=" ++ k1) ∈ (buildCodexCommand ⟨model, k1, b1⟩ rp pr osEnv gh).env)
    ∧ (b1 ≠ "" →
        ("OPENAI_BASE_URL=" ++ b1) ∈ (buildCodexCommand ⟨model, k1, b1⟩ rp pr osEnv gh).env) := by
  refine ⟨rfl, rfl, ?_, ?_⟩
  · intro hk
    have hk' : (k1 != "") = true := by simp [hk]
    cases hB : (b1 != "") <;> cases hG : (gh != "") <;>
      simp [buildCodexCommand, hk', hB, hG]
  · intro hb
    have hb' : (b1 != "") = true := by simp [hb]
    cases hK : (k1 != "") <;> cases hG : (gh != "") <;>
      simp [buildCodexCommand, hK, hb', hG]

/-- Witness for C8 at concrete inputs: concrete credentials appear in the
environment entries while the argv stays the fixed vector. -/
theorem c8_codex_credentials_env_only_witness :
    ("OPENAI_API_KEY=" ++ "sk-secret")
        ∈ (buildCodexCommand ⟨"gpt-5", "sk-secret", "https://proxy"⟩ "/tmp/repo" "do it" [] "").env
    ∧ ("OPENAI_BASE_URL=" ++ "https://proxy")
        ∈ (buildCodexCommand ⟨"gpt-5", "sk-secret", "https://proxy"⟩ "/tmp/repo" "do it" [] "").env := by
  constructor
  · exact (c8_codex_credentials_env_only "gpt-5" "/tmp/repo" "do it" "sk-secret"
      "https://proxy" "" "" [] "").2.2.1 (by decide)
  · exact (c8_codex_credentials_env_only "gpt-5" "/tmp/repo" "do it" "sk-secret"
      "https://proxy" "" "" [] "").2.2.2 (by decide)

/-- When the trigger keyword occurs in the body, `extractPrompt` reports
found, whatever follows the keyword. -/
theorem extractPrompt_found_of_contains (body kw : String)
    (h : containsSub body kw = true) : (extractPrompt body kw).2 = true := by
  unfold containsSub at h
  obtain ⟨i, hi⟩ := Option.isSome_iff_exists.mp h
  unfold extractPrompt
  rw [hi]

/-- `markIfNew` on an id absent from the map: record it and report new. -/
theorem markIfNew_fresh (w now : Int) (seen : List (Nat × Int)) (id : Nat)
    (h : ∀ e ∈ seen, e.1 ≠ id) :
    markIfNew w now seen id
      = (true, (id, now) :: seen.filter (fun e => now - e.2 ≤ w)) := by
  unfold markIfNew
  have hany : (seen.filter (fun e => now - e.2 ≤ w)).any (fun e => e.1 == id) = false := by
    rw [List.any_eq_false]
    intro e he
    simp [h e (List.mem_filter.mp he).1]
  simp only [markIfNew]
  rw [hany]
  simp

/-- `markIfNew` on an id seen within the window: report duplicate. -/
theorem markIfNew_dup (w now : Int) (seen : List (Nat × Int)) (id : Nat) (t1 : Int)
    (hmem : (id, t1) ∈ seen) (hwin : now - t1 ≤ w) :
    markIfNew w now seen id
      = (false, seen.filter (fun e => now - e.2 ≤ w)) := by
  unfold markIfNew
  have hany : (seen.filter (fun e => now - e.2 ≤ w)).any (fun e => e.1 == id) = true := by
    rw [List.any_eq_true]
    exact ⟨(id, t1), List.mem_filter.mpr ⟨hmem, by simpa using hwin⟩, by simp⟩
  simp only [markIfNew]
  rw [hany]
  simp

/-- A successful `createStoreTask`: with the task id fresh in the database,
the tasks table gains exactly the pending row and the logs table the
"Task queued" entry. -/
theorem createStoreTaskStore_fresh (s : Store) (task : PilotTask) (title : String)
    (now : Int) (h : ∀ r ∈ s.db.tasks, r.id ≠ task.id) :
    createStoreTaskStore s task title now
      = ⟨⟨s.db.tasks ++ [queuedStoreRow task title now],
          s.db.logRows ++ [queuedLogRow task now]⟩⟩ := by
  have hany : s.db.tasks.any (fun r => r.id == task.id) = false := by
    rw [List.any_eq_false]
    intro r hr
    simp [h r hr]
  have hany2 : ((s.db.tasks ++ [queuedStoreRow task title now]).any
      (fun r => r.id == task.id)) = true := by
    rw [List.any_eq_true]
    exact ⟨queuedStoreRow task title now, by simp, by simp [queuedStoreRow]⟩
  have hmap : (s.db.tasks.map
        (fun r => if r.id = task.id then { r with updatedAt := now } else r))
      = s.db.tasks := by
    conv_rhs => rw [← List.map_id s.db.tasks]
    apply List.map_congr_left
    intro r hr
    simp [h r hr]
  unfold createStoreTaskStore Store.create Store.addLog
  simp [hany, hany2, hmap, setCreationTimes, queuedStoreRow, queuedLogRow, validLogLevel]

/-- The full effect of an accepted issue-comment delivery: response 202/Task
queued, the comment id recorded, the store row created, the task enqueued. -/
theorem handleIssueComment_accepted (kw : String) (w : Int) (enr : EnrichmentResult)
    (now : Int) (st : HandlerState) (ev : CommentEvent)
    (ha : ev.action = "created") (hb : ev.userType ≠ "Bot")
    (hk : containsSub ev.body kw = true)
    (hd : ∀ e ∈ st.deduper, e.1 ≠ ev.commentId) :
    handleIssueComment kw w true enr now st ev
      = (.taskQueued,
         { deduper := (ev.commentId, now) :: st.deduper.filter (fun e => now - e.2 ≤ w)
           store := createStoreTaskStore st.store (issueEventTask kw ev enr now)
             ev.issueTitle now
           queued := st.queued ++ [issueEventTask kw ev enr now] }) := by
  have ha' : (ev.action != "created") = false := by simp [ha]
  have hb' : (ev.userType == "Bot") = false := by simp [hb]
  have hmark := markIfNew_fresh w now st.deduper ev.commentId hd
  rcases hxp : extractPrompt ev.body kw with ⟨instr, found⟩
  have hfound : found = true := by
    have := extractPrompt_found_of_contains ev.body kw hk
    rw [hxp] at this
    exact this
  subst hfound
  simp only [handleIssueComment, ha', hb', hk, hmark, hxp, createStoreTask,
    Bool.not_true, Bool.false_eq_true, if_false, ite_false, ite_true]

/-- An issue-comment delivery whose comment id was already seen within the
window is answered with the duplicate response; store and queue are
untouched. -/
theorem handleIssueComment_dup (kw : String) (w : Int) (enr : EnrichmentResult)
    (now : Int) (st : HandlerState) (ev : CommentEvent)
    (ha : ev.action = "created") (hb : ev.userType ≠ "Bot")
    (hk : containsSub ev.body kw = true)
    (hdup : ∃ t1, (ev.commentId, t1) ∈ st.deduper ∧ now - t1 ≤ w) :
    handleIssueComment kw w true enr now st ev
      = (.duplicateIgnored,
         { st with deduper := st.deduper.filter (fun e => now - e.2 ≤ w) }) := by
  have ha' : (ev.action != "created") = false := by simp [ha]
  have hb' : (ev.userType == "Bot") = false := by simp [hb]
  obtain ⟨t1, hmem, hwin⟩ := hdup
  have hmark := markIfNew_dup w now st.deduper ev.commentId t1 hmem hwin
  simp only [handleIssueComment, ha', hb', hk, hmark, Bool.not_true,
    Bool.false_eq_true, if_false, ite_false, ite_true]

/-- An issue-comment delivery whose poster fails the permission check is
answered with the permission-denied response before the deduper is consulted;
the state is untouched. -/
theorem handleIssueComment_denied (kw : String) (w : Int) (enr : EnrichmentResult)
    (now : Int) (st : HandlerState) (ev : CommentEvent)
    (ha : ev.action = "created") (hb : ev.userType ≠ "Bot")
    (hk : containsSub ev.body kw = true) :
    handleIssueComment kw w false enr now st ev = (.permissionDenied, st) := by
  have ha' : (ev.action != "created") = false := by simp [ha]
  have hb' : (ev.userType == "Bot") = false := by simp [hb]
  simp [handleIssueComment, ha', hb', hk]

/-- The full effect of an accepted review-comment delivery. -/
theorem handleReviewComment_accepted (kw : String) (w : Int) (enr : EnrichmentResult)
    (now : Int) (st : HandlerState) (ev : ReviewCommentEvent)
    (ha : ev.action = "created") (hb : ev.userType ≠ "Bot")
    (hk : containsSub ev.body kw = true)
    (hd : ∀ e ∈ st.deduper, e.1 ≠ ev.commentId) :
    handleReviewComment kw w true enr now st ev
      = (.taskQueued,
         { deduper := (ev.commentId, now) :: st.deduper.filter (fun e => now - e.2 ≤ w)
           store := createStoreTaskStore st.store (reviewEventTask kw ev enr now)
             ev.prTitle now
           queued := st.queued ++ [reviewEventTask kw ev enr now] }) := by
  have ha' : (ev.action != "created") = false := by simp [ha]
  have hb' : (ev.userType == "Bot") = false := by simp [hb]
  have hmark := markIfNew_fresh w now st.deduper ev.commentId hd
  rcases hxp : extractPrompt ev.body kw with ⟨instr, found⟩
  have hfound : found = true := by
    have := extractPrompt_found_of_contains ev.body kw hk
    rw [hxp] at this
    exact this
  subst hfound
  simp only [handleReviewComment, ha', hb', hk, hmark, hxp, createStoreTask,
    Bool.not_true, Bool.false_eq_true, if_false, ite_false, ite_true]

/-- A review-comment delivery whose comment id was already seen within the
window is answered with the duplicate response; store and queue are
untouched. -/
theorem handleReviewComment_dup (kw : String) (w : Int) (enr : EnrichmentResult)
    (now : Int) (st : HandlerState) (ev : ReviewCommentEvent)
    (ha : ev.action = "created") (hb : ev.userType ≠ "Bot")
    (hk : containsSub ev.body kw = true)
    (hdup : ∃ t1, (ev.commentId, t1) ∈ st.deduper ∧ now - t1 ≤ w) :
    handleReviewComment kw w true enr now st ev
      = (.duplicateIgnored,
         { st with deduper := st.deduper.filter (fun e => now - e.2 ≤ w) }) := by
  have ha' : (ev.action != "created") = false := by simp [ha]
  have hb' : (ev.userType == "Bot") = false := by simp [hb]
  obtain ⟨t1, hmem, hwin⟩ := hdup
  have hmark := markIfNew_dup w now st.deduper ev.commentId t1 hmem hwin
  simp only [handleReviewComment, ha', hb', hk, hmark, Bool.not_true,
    Bool.false_eq_true, if_false, ite_false, ite_true]

/-- A review-comment delivery whose poster fails the permission check is
answered with the permission-denied response; the state is untouched. -/
theorem handleReviewComment_denied (kw : String) (w : Int) (enr : EnrichmentResult)
    (now : Int) (st : HandlerState) (ev : ReviewCommentEvent)
    (ha : ev.action = "created") (hb : ev.userType ≠ "Bot")
    (hk : containsSub ev.body kw = true) :
    handleReviewComment kw w false enr now st ev = (.permissionDenied, st) := by
  have ha' : (ev.action != "created") = false := by simp [ha]
  have hb' : (ev.userType == "Bot") = false := by simp [hb]
  simp [handleReviewComment, ha', hb', hk]

/-- C3: a comment id delivered twice within the 12-hour retention window,
where each delivery would individually be accepted, creates exactly one task:
the first delivery is answered 202 and appends one store row and one queued
task; the second is answered 200 with body "Duplicate comment ignored" and
leaves store and queue untouched.  Stated for both the issue-comment and the
review-comment handler. -/
theorem c3_duplicate_within_window_single_task
    (kw : String) (t1 t2 : Int) (enr : EnrichmentResult)
    (st : HandlerState) (ev : CommentEvent)
    (ha : ev.action = "created") (hb : ev.userType ≠ "Bot")
    (hk : containsSub ev.body kw = true)
    (hd : ∀ e ∈ st.deduper, e.1 ≠ ev.commentId)
    (hid : ∀ r ∈ st.store.db.tasks, r.id ≠ (issueEventTask kw ev enr t1).id)
    (hwin : t2 - t1 ≤ dedupWindowNanos)
    (rst : HandlerState) (rv : ReviewCommentEvent)
    (ra : rv.action = "created") (rb : rv.userType ≠ "Bot")
    (rk : containsSub rv.body kw = true)
    (rd : ∀ e ∈ rst.deduper, e.1 ≠ rv.commentId)
    (rid : ∀ r ∈ rst.store.db.tasks, r.id ≠ (reviewEventTask kw rv enr t1).id) :
    ((handleIssueComment kw dedupWindowNanos true enr t1 st ev).1 = .taskQueued
      ∧ (handleIssueComment kw dedupWindowNanos true enr t1 st ev).2.queued
          = st.queued ++ [issueEventTask kw ev enr t1]
      ∧ (handleIssueComment kw dedupWindowNanos true enr t1 st ev).2.store.db.tasks
          = st.store.db.tasks
              ++ [queuedStoreRow (issueEventTask kw ev enr t1) ev.issueTitle t1]
      ∧ (handleIssueComment kw dedupWindowNanos true enr t2
            (handleIssueComment kw dedupWindowNanos true enr t1 st ev).2 ev).1
          = .duplicateIgnored
      ∧ HResponse.statusCode .duplicateIgnored = 200
      ∧ HResponse.bodyText .duplicateIgnored = "Duplicate comment ignored"
      ∧ (handleIssueComment kw dedupWindowNanos true enr t2
            (handleIssueComment kw dedupWindowNanos true enr t1 st ev).2 ev).2.store
          = (handleIssueComment kw dedupWindowNanos true enr t1 st ev).2.store
      ∧ (handleIssueComment kw dedupWindowNanos true enr t2
            (handleIssueComment kw dedupWindowNanos true enr t1 st ev).2 ev).2.queued
          = (handleIssueComment kw dedupWindowNanos true enr t1 st ev).2.queued)
    ∧ ((handleReviewComment kw dedupWindowNanos true enr t1 rst rv).1 = .taskQueued
      ∧ (handleReviewComment kw dedupWindowNanos true enr t1 rst rv).2.queued
          = rst.queued ++ [reviewEventTask kw rv enr t1]
      ∧ (handleReviewComment kw dedupWindowNanos true enr t1 rst rv).2.store.db.tasks
          = rst.store.db.tasks
              ++ [queuedStoreRow (reviewEventTask kw rv enr t1) rv.prTitle t1]
      ∧ (handleReviewComment kw dedupWindowNanos true enr t2
            (handleReviewComment kw dedupWindowNanos true enr t1 rst rv).2 rv).1
          = .duplicateIgnored
      ∧ (handleReviewComment kw dedupWindowNanos true enr t2
            (handleReviewComment kw dedupWindowNanos true enr t1 rst rv).2 rv).2.store
          = (handleReviewComment kw dedupWindowNanos true enr t1 rst rv).2.store
      ∧ (handleReviewComment kw dedupWindowNanos true enr t2
            (handleReviewComment kw dedupWindowNanos true enr t1 rst rv).2 rv).2.queued
          = (handleReviewComment kw dedupWindowNanos true enr t1 rst rv).2.queued) := by
  have h1 := handleIssueComment_accepted kw dedupWindowNanos enr t1 st ev ha hb hk hd
  have hrow := createStoreTaskStore_fresh st.store (issueEventTask kw ev enr t1)
    ev.issueTitle t1 hid
  have h2 := handleIssueComment_dup kw dedupWindowNanos enr t2
    (handleIssueComment kw dedupWindowNanos true enr t1 st ev).2 ev ha hb hk
    (by rw [h1]; exact ⟨t1, List.mem_cons_self _ _, hwin⟩)
  have r1 := handleReviewComment_accepted kw dedupWindowNanos enr t1 rst rv ra rb rk rd
  have rrow := createStoreTaskStore_fresh rst.store (reviewEventTask kw rv enr t1)
    rv.prTitle t1 rid
  have r2 := handleReviewComment_dup kw dedupWindowNanos enr t2
    (handleReviewComment kw dedupWindowNanos true enr t1 rst rv).2 rv ra rb rk
    (by rw [r1]; exact ⟨t1, List.mem_cons_self _ _, hwin⟩)
  refine ⟨⟨by rw [h1], by rw [h1], by rw [h1, hrow], by rw [h2], rfl, rfl,
    by rw [h2], by rw [h2]⟩,
    by rw [r1], by rw [r1], by rw [r1, rrow], by rw [r2], by rw [r2], by rw [r2]⟩

/-- Witness for C3 at concrete inputs: the sample issue and review deliveries
repeated one nanosecond apart on fresh state. -/
theorem c3_duplicate_within_window_single_task_witness :
    (handleIssueComment "/code" dedupWindowNanos true (.ok none) 2
        (handleIssueComment "/code" dedupWindowNanos true (.ok none) 1
          freshState sampleIssueEvent).2 sampleIssueEvent).1
      = .duplicateIgnored
    ∧ (handleReviewComment "/code" dedupWindowNanos true (.ok none) 2
        (handleReviewComment "/code" dedupWindowNanos true (.ok none) 1
          freshState sampleReviewEvent).2 sampleReviewEvent).1
      = .duplicateIgnored := by
  have h := c3_duplicate_within_window_single_task "/code" 1 2 (.ok none)
    freshState sampleIssueEvent (by decide) (by decide) (by decide)
    (by decide) (by decide) (by decide)
    freshState sampleReviewEvent (by decide) (by decide) (by decide)
    (by decide) (by decide)
  exact ⟨h.1.2.2.2.1, h.2.2.2.2.1⟩

/-- C4 counterexample: a delivery whose comment id (42) was already seen
within the window but whose poster fails the permission check is answered
"Permission denied", not "Duplicate comment ignored" — the authorizer runs
before the deduplicator. -/
theorem c4_counterexample :
    (handleIssueComment "/code" dedupWindowNanos false (.ok none) 1
        dupSeenState sampleIssueEvent).1 = .permissionDenied
    ∧ (handleIssueComment "/code" dedupWindowNanos false (.ok none) 1
        dupSeenState sampleIssueEvent).1 ≠ .duplicateIgnored := by decide

/-- C4 (amended): after signature verification and parsing, both comment
handlers consult the authorizer before the deduplicator: a delivery whose
comment id was already seen within the window receives the duplicate-ignored
response (with store and queue untouched) only when the poster passes the
permission check; when the poster fails it, the response is permission-denied
and the state is untouched. -/
theorem c4_authorizer_before_deduper
    (kw : String) (w : Int) (enr : EnrichmentResult) (now : Int)
    (st : HandlerState) (ev : CommentEvent)
    (ha : ev.action = "created") (hb : ev.userType ≠ "Bot")
    (hk : containsSub ev.body kw = true)
    (hdup : ∃ t1, (ev.commentId, t1) ∈ st.deduper ∧ now - t1 ≤ w)
    (rst : HandlerState) (rv : ReviewCommentEvent)
    (ra : rv.action = "created") (rb : rv.userType ≠ "Bot")
    (rk : containsSub rv.body kw = true)
    (rdup : ∃ t1, (rv.commentId, t1) ∈ rst.deduper ∧ now - t1 ≤ w) :
    (handleIssueComment kw w false enr now st ev = (.permissionDenied, st)
      ∧ (handleIssueComment kw w true enr now st ev).1 = .duplicateIgnored
      ∧ (handleIssueComment kw w true enr now st ev).2.store = st.store
      ∧ (handleIssueComment kw w true enr now st ev).2.queued = st.queued)
    ∧ (handleReviewComment kw w false enr now rst rv = (.permissionDenied, rst)
      ∧ (handleReviewComment kw w true enr now rst rv).1 = .duplicateIgnored
      ∧ (handleReviewComment kw w true enr now rst rv).2.store = rst.store
      ∧ (handleReviewComment kw w true enr now rst rv).2.queued = rst.queued) := by
  have hdeny := handleIssueComment_denied kw w enr now st ev ha hb hk
  have hdupthm := handleIssueComment_dup kw w enr now st ev ha hb hk hdup
  have rdeny := handleReviewComment_denied kw w enr now rst rv ra rb rk
  have rdupthm := handleReviewComment_dup kw w enr now rst rv ra rb rk rdup
  exact ⟨⟨hdeny, by rw [hdupthm], by rw [hdupthm], by rw [hdupthm]⟩,
    ⟨rdeny, by rw [rdupthm], by rw [rdupthm], by rw [rdupthm]⟩⟩

/-- Witness for C4's amended statement at concrete inputs: the duplicate
delivery with permission denied versus granted. -/
theorem c4_authorizer_before_deduper_witness :
    handleIssueComment "/code" dedupWindowNanos false (.ok none) 1
        dupSeenState sampleIssueEvent = (.permissionDenied, dupSeenState)
    ∧ (handleIssueComment "/code" dedupWindowNanos true (.ok none) 1
        dupSeenState sampleIssueEvent).1 = .duplicateIgnored := by
  have h := c4_authorizer_before_deduper "/code" dedupWindowNanos (.ok none) 1
    dupSeenState sampleIssueEvent (by decide) (by decide) (by decide)
    ⟨0, by decide, by decide⟩
    { dupSeenState with deduper := [(99, 0)] } sampleReviewEvent
    (by decide) (by decide) (by decide) ⟨0, by decide, by decide⟩
  exact ⟨h.1.1, h.1.2.1⟩

/-- Converse direction: `extractPrompt` reports found only when the keyword
occurs in the body. -/
theorem contains_of_extractPrompt_found (body kw : String)
    (h : (extractPrompt body kw).2 = true) : containsSub body kw = true := by
  unfold extractPrompt at h
  unfold containsSub
  cases hidx : firstIndexOf body.data kw.data with
  | none => rw [hidx] at h; simp at h
  | some i => simp [hidx]

/-- C10: when the trigger keyword occurs in the comment body, `extractPrompt`
reports found even when nothing (or only whitespace) follows it; the
handler's "No prompt found" branch is unreachable; and a gate-passing
delivery whose extracted instruction is empty still creates a store row and
enqueues a task whose composed prompt is built from the empty instruction
(issue context only). -/
theorem c10_trigger_always_yields_prompt :
    (∀ body kw : String, containsSub body kw = true → (extractPrompt body kw).2 = true)
    ∧ (∀ (kw : String) (w : Int) (perm : Bool) (enr : EnrichmentResult) (now : Int)
        (st : HandlerState) (ev : CommentEvent),
        (handleIssueComment kw w perm enr now st ev).1 ≠ .noPromptFound)
    ∧ (∀ (kw : String) (w : Int) (enr : EnrichmentResult) (now : Int)
        (st : HandlerState) (ev : CommentEvent),
        ev.action = "created" → ev.userType ≠ "Bot" →
        extractPrompt ev.body kw = ("", true) →
        (∀ e ∈ st.deduper, e.1 ≠ ev.commentId) →
        (∀ r ∈ st.store.db.tasks, r.id ≠ (issueEventTask kw ev enr now).id) →
        (handleIssueComment kw w true enr now st ev).1 = .taskQueued
          ∧ (handleIssueComment kw w true enr now st ev).2.queued
              = st.queued ++ [issueEventTask kw ev enr now]
          ∧ (handleIssueComment kw w true enr now st ev).2.store.db.tasks
              = st.store.db.tasks
                  ++ [queuedStoreRow (issueEventTask kw ev enr now) ev.issueTitle now]
          ∧ (issueEventTask kw ev enr now).prompt
              = buildPrompt ev.issueTitle ev.issueBody "") := by
  refine ⟨extractPrompt_found_of_contains, ?_, ?_⟩
  · intro kw w perm enr now st ev
    unfold handleIssueComment
    split_ifs with h1 h2 h3 h4
    · simp
    · simp
    · simp
    · simp
    · have hk : containsSub ev.body kw = true := by
        revert h3
        cases containsSub ev.body kw <;> simp
      rcases hmk : markIfNew w now st.deduper ev.commentId with ⟨b, seen'⟩
      cases b
      · simp
      · rcases hxp : extractPrompt ev.body kw with ⟨instr, found⟩
        have hfound : found = true := by
          have h := extractPrompt_found_of_contains ev.body kw hk
          rw [hxp] at h
          exact h
        subst hfound
        simp
  · intro kw w enr now st ev ha hb hx hd hid
    have hk : containsSub ev.body kw = true :=
      contains_of_extractPrompt_found ev.body kw (by rw [hx])
    have h1 := handleIssueComment_accepted kw w enr now st ev ha hb hk hd
    have hrow := createStoreTaskStore_fresh st.store (issueEventTask kw ev enr now)
      ev.issueTitle now hid
    refine ⟨by rw [h1], by rw [h1], by rw [h1, hrow], ?_⟩
    simp [issueEventTask, hx]

/-- Witness for C10's conditional part at a concrete input: a comment whose
body ends at `/code` (only whitespace after) is still accepted with an
issue-context-only prompt. -/
theorem c10_trigger_always_yields_prompt_witness :
    (handleIssueComment "/code" dedupWindowNanos true (.ok none) 1
        freshState bareTriggerEvent).1 = .taskQueued
    ∧ (issueEventTask "/code" bareTriggerEvent (.ok none) 1).prompt
        = buildPrompt bareTriggerEvent.issueTitle bareTriggerEvent.issueBody "" := by
  have h := c10_trigger_always_yields_prompt.2.2 "/code" dedupWindowNanos
    (.ok none) 1 freshState bareTriggerEvent (by decide) (by decide)
    (by decide) (by decide) (by decide)
  exact ⟨h.1, h.2.2.2⟩

/-- Inserting below a strictly smaller head keeps the list shape. -/
theorem insertByTime_lt (e x : LogEntry) (xs : List LogEntry)
    (h : e.timestamp < x.timestamp) :
    insertByTime e (x :: xs) = e :: x :: xs := by
  unfold insertByTime
  rw [if_pos h]

/-- Sorting by timestamp leaves a strictly-ordered list unchanged. -/
theorem sortLogsByTime_sorted_id (l : List LogEntry)
    (h : List.Chain' (fun a b => a.timestamp < b.timestamp) l) :
    sortLogsByTime l = l := by
  induction l with
  | nil => rfl
  | cons x xs ih =>
    unfold sortLogsByTime
    rw [ih h.tail]
    cases xs with
    | nil => rfl
    | cons y ys =>
      exact insertByTime_lt x y ys (List.chain'_cons.mp h).1

/-- Filtering the tagged copies of a task's logs recovers the logs. -/
theorem filter_tagged_logs (id : String) (logs : List LogEntry) :
    (((logs.map (fun l => (id, l))).filter (fun p => p.1 == id)).map
        (fun p => p.2)) = logs := by
  induction logs with
  | nil => rfl
  | cons x xs ih => simp [ih]

/-- The store round trip: with a fresh id, database-valid log levels, and
strictly increasing log timestamps, `Create → Close → Reopen → Get` returns
exactly the created record (both timestamps stamped by `Create`). -/
theorem store_create_reopen_get (db : DB) (task : StoreTask) (now : Int)
    (hfresh : ∀ r ∈ db.tasks, r.id ≠ task.id)
    (horphan : ∀ p ∈ db.logRows, p.1 ≠ task.id)
    (hlevel : task.logs.all (fun l => validLogLevel l.level) = true)
    (hsorted : List.Chain' (fun a b => a.timestamp < b.timestamp) task.logs) :
    ∃ s', (NewStore db).create task now = .ok s'
      ∧ (NewStore s'.Close).get task.id = some (setCreationTimes task now) := by
  have hany : db.tasks.any (fun r => r.id == task.id) = false := by
    rw [List.any_eq_false]
    intro r hr
    simp [hfresh r hr]
  have hcreate : (NewStore db).create task now
      = .ok ⟨⟨db.tasks ++ [{ setCreationTimes task now with logs := [] }],
              db.logRows ++ task.logs.map (fun l => (task.id, l))⟩⟩ := by
    unfold NewStore Store.create
    simp [hany, hlevel, setCreationTimes]
  refine ⟨_, hcreate, ?_⟩
  have hfind : List.find? (fun r => r.id == task.id)
      (db.tasks ++ [{ setCreationTimes task now with logs := [] }])
      = some { setCreationTimes task now with logs := [] } := by
    rw [List.find?_append]
    have hnone : List.find? (fun r => r.id == task.id) db.tasks = none := by
      rw [List.find?_eq_none]
      intro r hr
      simp [hfresh r hr]
    simp [hnone, setCreationTimes, List.find?]
  have hno : List.filter (fun p => p.1 == task.id) db.logRows = [] := by
    rw [List.filter_eq_nil_iff]
    intro p hp
    simp [horphan p hp]
  unfold NewStore Store.Close Store.get
  rw [hfind]
  unfold loadLogs
  simp only [List.filter_append, hno, List.nil_append, filter_tagged_logs]
  rw [sortLogsByTime_sorted_id task.logs hsorted]
  cases task
  simp [setCreationTimes]

/-- C7 counterexample: a task whose two pre-seeded logs carry out-of-order
timestamps round-trips to a task whose logs come back reordered by
`ORDER BY timestamp ASC` — found, but not bit-identical. -/
theorem c7_counterexample :
    outOfOrderRoundTrip.isSome = true
    ∧ outOfOrderRoundTrip ≠ some (setCreationTimes outOfOrderTask 5) := by decide

/-- C7 (amended): for every task record whose log levels satisfy the schema
constraint and whose log timestamps are strictly increasing, and whose id is
fresh for the database file, `Create → Close → NewStore(same path) → Get`
finds the task and returns it bit-identically (as stamped by `Create`),
including its ordered log entries. -/
theorem c7_create_close_reopen_get_roundtrip (db : DB) (task : StoreTask) (now : Int)
    (hfresh : ∀ r ∈ db.tasks, r.id ≠ task.id)
    (horphan : ∀ p ∈ db.logRows, p.1 ≠ task.id)
    (hlevel : task.logs.all (fun l => validLogLevel l.level) = true)
    (hsorted : List.Chain' (fun a b => a.timestamp < b.timestamp) task.logs) :
    ∃ s', (NewStore db).create task now = .ok s'
      ∧ (NewStore s'.Close).get task.id = some (setCreationTimes task now) :=
  store_create_reopen_get db task now hfresh horphan hlevel hsorted

/-- Witness for C7's amended statement at a concrete input: a task with two
strictly ordered logs round-trips bit-identically through a fresh file. -/
theorem c7_create_close_reopen_get_roundtrip_witness :
    ∃ s', (NewStore emptyDB).create
        { id := "t2", title := "T", status := .pending
          repoOwner := "acme", repoName := "repo", issueNumber := 7
          actor := "alice", createdAt := 0, updatedAt := 0
          logs := [⟨1, "info", "first"⟩, ⟨2, "error", "second"⟩] } 5 = .ok s'
      ∧ (NewStore s'.Close).get "t2"
          = some (setCreationTimes
              { id := "t2", title := "T", status := .pending
                repoOwner := "acme", repoName := "repo", issueNumber := 7
                actor := "alice", createdAt := 0, updatedAt := 0
                logs := [⟨1, "info", "first"⟩, ⟨2, "error", "second"⟩] } 5) :=
  c7_create_close_reopen_get_roundtrip emptyDB
    { id := "t2", title := "T", status := .pending
      repoOwner := "acme", repoName := "repo", issueNumber := 7
      actor := "alice", createdAt := 0, updatedAt := 0
      logs := [⟨1, "info", "first"⟩, ⟨2, "error", "second"⟩] } 5
    (by decide) (by decide) (by decide)
    (by simp [List.chain'_cons])

/-- The marker occupies 21 bytes. -/
theorem marker_len : truncationMarker.length = 21 := by decide

/-- C9: for every string and positive limit, `truncateLogString` returns at
most `limit` characters; a string within the limit is returned unchanged; an
over-limit string is truncated so that the result ends in a nonempty suffix
of the input (the preserved tail); and whenever the limit is large enough to
keep both a head and a tail, the result is a nonempty prefix of the input,
the ellipsis marker, and a nonempty suffix of the input, in that order. -/
theorem c9_truncateLogString_bounds (s : List Char) (L : Nat) (hL : 0 < L) :
    (truncateLogString s L).length ≤ L
    ∧ (s.length ≤ L → truncateLogString s L = s)
    ∧ (L < s.length → ∃ t, t ≠ [] ∧ t <:+ s ∧ t <:+ truncateLogString s L)
    ∧ (L < s.length → truncationMarker.length + 32 < L →
        ∃ hd tl, hd ≠ [] ∧ hd <+: s ∧ tl ≠ [] ∧ tl <:+ s ∧
          truncateLogString s L = hd ++ truncationMarker ++ tl) := by
  have hm := marker_len
  have hne0 : ¬(L = 0) := by omega
  by_cases hsmall : s.length ≤ L
  · have hres : truncateLogString s L = s := by
      simp only [truncateLogString]
      rw [if_neg hne0, if_pos hsmall]
    refine ⟨by rw [hres]; omega, fun _ => hres, fun h => absurd h (by omega),
      fun h => absurd h (by omega)⟩
  · push_neg at hsmall
    by_cases hmid : L ≤ truncationMarker.length + 32
    · have hres : truncateLogString s L = s.drop (s.length - L) := by
        simp only [truncateLogString]
        rw [if_neg hne0, if_neg (by omega), if_pos hmid]
      have hlen : (s.drop (s.length - L)).length = L := by
        rw [List.length_drop]; omega
      refine ⟨by rw [hres]; omega, fun h => absurd h (by omega), ?_, ?_⟩
      · intro _
        refine ⟨s.drop (s.length - L), ?_, List.drop_suffix _ _, by rw [hres]⟩
        intro hnil
        rw [← List.length_eq_zero] at hnil
        omega
      · intro _ hbig
        rw [hm] at hmid
        rw [hm] at hbig
        omega
    · push_neg at hmid
      have hpos : 0 < L / 4 := by rw [hm] at hmid; omega
      have htail0 : ¬(L - L / 4 - truncationMarker.length = 0) := by
        rw [hm]; rw [hm] at hmid; omega
      have htknil : ¬(s.take (L / 4) = []) := by
        intro hnil
        rw [← List.length_eq_zero, List.length_take] at hnil
        rw [hm] at hmid
        omega
      have hres : truncateLogString s L
          = s.take (L / 4) ++ truncationMarker
              ++ s.drop (s.length - (L - L / 4 - truncationMarker.length)) := by
        simp only [truncateLogString]
        rw [if_neg hne0, if_neg (by omega), if_neg (by omega), if_neg htail0,
          if_pos hpos, if_neg htknil]
      have hlentk : (s.take (L / 4)).length = L / 4 := by
        rw [List.length_take]; rw [hm] at hmid; omega
      have hlendp : (s.drop (s.length - (L - L / 4 - truncationMarker.length))).length
          = L - L / 4 - truncationMarker.length := by
        rw [List.length_drop]; rw [hm] at hmid ⊢; omega
      refine ⟨?_, fun h => absurd h (by omega), ?_, ?_⟩
      · rw [hres]
        simp only [List.length_append, hlentk, hlendp]
        rw [hm] at hmid ⊢; omega
      · intro _
        refine ⟨s.drop (s.length - (L - L / 4 - truncationMarker.length)), ?_,
          List.drop_suffix _ _, ?_⟩
        · intro hnil
          rw [← List.length_eq_zero, hlendp] at hnil
          rw [hm] at hmid hnil
          omega
        · rw [hres]
          exact ⟨s.take (L / 4) ++ truncationMarker, rfl⟩
      · intro _ _
        refine ⟨s.take (L / 4), s.drop (s.length - (L - L / 4 - truncationMarker.length)),
          htknil, List.take_prefix _ _, ?_, List.drop_suffix _ _, hres⟩
        intro hnil
        rw [← List.length_eq_zero, hlendp] at hnil
        rw [hm] at hmid hnil
        omega

/-- Witness for C9 at a concrete input: a 100-character string truncated to
60 keeps a head, the marker, and the tail. -/
theorem c9_truncateLogString_bounds_witness :
    (0 : Nat) < 60
    ∧ ((truncateLogString (List.replicate 100 'x') 60).length ≤ 60
        ∧ ((List.replicate 100 'x').length ≤ 60 →
            truncateLogString (List.replicate 100 'x') 60 = List.replicate 100 'x')
        ∧ (60 < (List.replicate 100 'x').length →
            ∃ t, t ≠ [] ∧ t <:+ List.replicate 100 'x'
              ∧ t <:+ truncateLogString (List.replicate 100 'x') 60)
        ∧ (60 < (List.replicate 100 'x').length → truncationMarker.length + 32 < 60 →
            ∃ hd tl, hd ≠ [] ∧ hd <+: List.replicate 100 'x' ∧ tl ≠ []
              ∧ tl <:+ List.replicate 100 'x'
              ∧ truncateLogString (List.replicate 100 'x') 60
                  = hd ++ truncationMarker ++ tl)) :=
  ⟨by decide, c9_truncateLogString_bounds (List.replicate 100 'x') 60 (by decide)⟩

end Swe
